import Mathlib

/-!
Verification of the dagster intermediate-value store
(`dagster/core/execution_plan/intermediates_manager.py`).

The store has two backends: `InMemoryIntermediatesManager`, backed by a
Python dict, and `FileSystemIntermediateManager`, backed by a directory
tree rooted at a fixed path, one file per `(step_key, output_name)` handle.

Shallow embedding conventions:
  - Python methods become functions threading their state explicitly and
    returning `Except Err (result × state)`; a raised exception becomes
    `.error e` and, because every raise in the source happens before any
    mutation, an error carries no new state.
  - The Python dict of the in-memory backend becomes an association list
    queried through `alookup` (first binding wins, like dict update order
    reversed: insertion conses, lookup takes the newest binding).
  - The filesystem becomes an association list from path strings to nodes
    (directories / regular files with byte contents).  Paths are exact
    strings; `os.path.join` is translated literally from `posixpath.join`.
  - The pickle codec is an opaque encode/decode pair passed as parameters,
    matching the spec's treatment of serialization as an external
    dependency.
  - `dagster.check` and `dagster.utils.mkdir_p` are code of the repository
    that is not under `src/`; they are modelled from the spec where marked.
    Failed `check.invariant` calls surface as the typed failure the spec's
    error taxonomy assigns to the failed condition; a Python `KeyError`
    from a plain dict subscript is the distinct `keyNotFound` failure
    (the spec calls it `KeyNotFound`).
-/

set_option autoImplicit false

namespace IntermediatesStore

/-- Modelled from the spec: the error taxonomy of section 7 together with the
failure modes of the missing `dagster.check` module.  `check.invariant`
failures surface as `preconditionViolation`, `invalidRoot` or `corruptStore`
according to the condition that failed; a Python `KeyError` from a dict
subscript is `keyNotFound`; parameter validation failures in constructors are
`invalidParameter`; underlying I/O failures propagate as `ioError`. -/
inductive Err where
  | preconditionViolation : Err
  | invalidRoot : Err
  | corruptStore : Err
  | keyNotFound : Err
  | invalidParameter : Err
  | ioError : Err
  deriving DecidableEq, Repr

/-- The handle type: `StepOutputHandle = namedtuple('_StepOutputHandle',
'step_key output_name')`.  Value equality is componentwise, as for a Python
namedtuple. -/
structure StepOutputHandle where
  step_key : String
  output_name : String
  deriving DecidableEq, Repr

/-- Modelled from the spec: `StepOutputHandle.__new__` validates both fields
through `check.str_param` (the `dagster.check` module is not under `src/`).
Per the spec, "constructed from a step's key and one of its declared output
names; both must be non-empty strings"; construction with an empty field
fails. -/
def StepOutputHandle.new (step_key output_name : String) : Except Err StepOutputHandle :=
  if step_key = "" then .error .invalidParameter
  else if output_name = "" then .error .invalidParameter
  else .ok ⟨step_key, output_name⟩

/-- First-match association-list lookup; the embedding of dict subscript /
containment for the in-memory backend and of path lookup for the modelled
filesystem. -/
def alookup {κ : Type} [DecidableEq κ] {β : Type} : List (κ × β) → κ → Option β
  | [], _ => none
  | (k, v) :: rest, q => if q = k then some v else alookup rest q

@[simp] theorem alookup_nil {κ : Type} [DecidableEq κ] {β : Type} (q : κ) :
    alookup ([] : List (κ × β)) q = none := rfl

@[simp] theorem alookup_cons {κ : Type} [DecidableEq κ] {β : Type}
    (k q : κ) (v : β) (rest : List (κ × β)) :
    alookup ((k, v) :: rest) q = if q = k then some v else alookup rest q := rfl

/-- `InMemoryIntermediatesManager.__init__`: `self.values = {}`; the dict
is the whole state.  `values` is the newest-first association list whose
`alookup` is the dict lookup. -/
structure InMemoryIntermediatesManager (α : Type) where
  values : List (StepOutputHandle × α)
  deriving DecidableEq, Repr

/-- `InMemoryIntermediatesManager.get_value`: `return self.values[step_output_handle]`.
A dict subscript on a missing key raises `KeyError` (`keyNotFound`); no
mutation. -/
def InMemoryIntermediatesManager.get_value {α : Type}
    (self : InMemoryIntermediatesManager α) (step_output_handle : StepOutputHandle) :
    Except Err (α × InMemoryIntermediatesManager α) :=
  match alookup self.values step_output_handle with
  | some v => .ok (v, self)
  | none => .error .keyNotFound

/-- `InMemoryIntermediatesManager.set_value`:
`self.values[step_output_handle] = value`.  A plain dict assignment: it
always succeeds and overwrites any existing binding (the new binding is
consed in front, shadowing the old one for `alookup`). -/
def InMemoryIntermediatesManager.set_value {α : Type}
    (self : InMemoryIntermediatesManager α) (step_output_handle : StepOutputHandle)
    (value : α) : Except Err (Unit × InMemoryIntermediatesManager α) :=
  .ok ((), ⟨(step_output_handle, value) :: self.values⟩)

/-- `InMemoryIntermediatesManager.has_value`:
`return step_output_handle in self.values`; dict containment, no mutation. -/
def InMemoryIntermediatesManager.has_value {α : Type}
    (self : InMemoryIntermediatesManager α) (step_output_handle : StepOutputHandle) :
    Except Err (Bool × InMemoryIntermediatesManager α) :=
  .ok ((alookup self.values step_output_handle).isSome, self)

/-- A node of the modelled filesystem: a directory or a regular file with
opaque byte contents. -/
inductive FSNode where
  | dir : FSNode
  | file : List Nat → FSNode
  deriving DecidableEq, Repr

/-- The modelled filesystem: exact path strings mapped to nodes. -/
abbrev FS := List (String × FSNode)

/-- `os.path.exists`. -/
def pathExists (fs : FS) (p : String) : Bool :=
  (alookup fs p).isSome

/-- `os.path.isfile`. -/
def isFile (fs : FS) (p : String) : Bool :=
  match alookup fs p with
  | some (.file _) => true
  | _ => false

/-- `os.path.isdir`. -/
def isDir (fs : FS) (p : String) : Bool :=
  match alookup fs p with
  | some .dir => true
  | _ => false

/-- `read_pickle_file(path)`: open for reading and unpickle.  Opening a
missing path or a directory, or a payload the codec rejects, is an
underlying I/O failure. -/
def read_pickle_file {α : Type} (dec : List Nat → Option α) (fs : FS) (p : String) :
    Except Err α :=
  match alookup fs p with
  | some (.file bs) =>
    match dec bs with
    | some v => .ok v
    | none => .error .ioError
  | some .dir => .error .ioError
  | none => .error .ioError

/-- `write_pickle_file(path, value)`: open for writing (truncate/create) and
pickle.  Opening a directory for writing fails; otherwise the file at `p` now
holds the encoded value.  (A missing parent directory would be a further
underlying I/O failure on a real filesystem; the flat path-string model does
not track parents, and no claim observes them — `set_value` creates the
parent before every write it performs.) -/
def write_pickle_file {α : Type} (enc : α → List Nat) (fs : FS) (p : String) (v : α) :
    Except Err FS :=
  match alookup fs p with
  | some .dir => .error .ioError
  | _ => .ok ((p, .file (enc v)) :: fs)

/-- Modelled from the spec: `dagster.utils.mkdir_p` is not under `src/`.
Per the spec: "ensure the per-step subdirectory exists (create if missing
... — idempotent)"; a path already occupied by a regular file cannot become
a directory and is an underlying I/O failure.  Intermediate directories are
not separately materialised in the flat path-string model; no claim observes
them. -/
def mkdir_p (fs : FS) (p : String) : Except Err FS :=
  if isDir fs p then .ok fs
  else if isFile fs p then .error .ioError
  else .ok ((p, .dir) :: fs)

/-- `b.startswith('/')` on the translation of `posixpath.join`. -/
def startsWithSlash (s : String) : Bool :=
  decide (s.data.head? = some '/')

/-- `path.endswith('/')` on the translation of `posixpath.join`. -/
def endsWithSlash (s : String) : Bool :=
  decide (s.data.getLast? = some '/')

/-- One step of `posixpath.join` (`os.path.join` on the POSIX path flavour):
an absolute second component replaces the accumulated path; otherwise the
separator is inserted unless the accumulated path is empty or already ends
with it. -/
def joinTwo (path b : String) : String :=
  if startsWithSlash b then b
  else if path = "" then path ++ b
  else if endsWithSlash path then path ++ b
  else path ++ "/" ++ b

/-- `FileSystemIntermediateManager.__init__` state: `self._root = root`
(after the `InvalidRoot` construction check, see `init`). -/
structure FileSystemIntermediateManager where
  root : String
  deriving DecidableEq, Repr

/-- `FileSystemIntermediateManager.__init__`:
`check.invariant(os.path.isdir(root))` — construction fails with
`InvalidRoot` unless the root is an existing directory; nothing else is
touched. -/
def FileSystemIntermediateManager.init (fs : FS) (root : String) :
    Except Err FileSystemIntermediateManager :=
  if isDir fs root then .ok ⟨root⟩ else .error .invalidRoot

/-- `FileSystemIntermediateManager._create_path_from_handle`:
`os.path.join(self._root, step_key, output_name)`. -/
def FileSystemIntermediateManager.create_path_from_handle
    (self : FileSystemIntermediateManager) (h : StepOutputHandle) : String :=
  joinTwo (joinTwo self.root h.step_key) h.output_name

/-- `FileSystemIntermediateManager.has_value`: derive the path; if it exists
it must be a regular file (`check.invariant(os.path.isfile(...))` inside the
exists branch — `corruptStore` when violated) and the answer is `true`;
otherwise `false`.  No mutation. -/
def FileSystemIntermediateManager.has_value
    (self : FileSystemIntermediateManager) (fs : FS) (h : StepOutputHandle) :
    Except Err (Bool × FS) :=
  if pathExists fs (self.create_path_from_handle h) then
    if isFile fs (self.create_path_from_handle h) then .ok (true, fs)
    else .error .corruptStore
  else .ok (false, fs)

/-- `FileSystemIntermediateManager.get_value`:
`check.invariant(self.has_value(...))` (`preconditionViolation` when the
value is absent), then `check.invariant(os.path.isfile(output_path))`
(`corruptStore` when violated), then `read_pickle_file`. -/
def FileSystemIntermediateManager.get_value {α : Type} (dec : List Nat → Option α)
    (self : FileSystemIntermediateManager) (fs : FS) (h : StepOutputHandle) :
    Except Err (α × FS) :=
  match self.has_value fs h with
  | .error e => .error e
  | .ok (false, _) => .error .preconditionViolation
  | .ok (true, fs1) =>
    if isFile fs1 (self.create_path_from_handle h) then
      match read_pickle_file dec fs1 (self.create_path_from_handle h) with
      | .ok v => .ok (v, fs1)
      | .error e => .error e
    else .error .corruptStore

/-- `FileSystemIntermediateManager.set_value`:
`check.invariant(not self.has_value(...))` (`preconditionViolation` on a
duplicate write), then `mkdir_p('{root}/{step_key}'.format(...))` (note: a
literal format string, not `os.path.join`), then
`check.invariant(not os.path.exists(output_path))`, then
`write_pickle_file`. -/
def FileSystemIntermediateManager.set_value {α : Type} (enc : α → List Nat)
    (self : FileSystemIntermediateManager) (fs : FS) (h : StepOutputHandle)
    (value : α) : Except Err (Unit × FS) :=
  match self.has_value fs h with
  | .error e => .error e
  | .ok (true, _) => .error .preconditionViolation
  | .ok (false, fs1) =>
    match mkdir_p fs1 (self.root ++ "/" ++ h.step_key) with
    | .error e => .error e
    | .ok fs2 =>
      if pathExists fs2 (self.create_path_from_handle h) then .error .preconditionViolation
      else
        match write_pickle_file enc fs2 (self.create_path_from_handle h) value with
        | .ok fs3 => .ok ((), fs3)
        | .error e => .error e

/-! Helper lemmas about the filesystem backend. -/

theorem fs_has_value_state {self : FileSystemIntermediateManager} {fs fs' : FS}
    {h : StepOutputHandle} {b : Bool}
    (he : self.has_value fs h = .ok (b, fs')) : fs' = fs := by
  unfold FileSystemIntermediateManager.has_value at he
  split at he
  · split at he
    · injection he with h1; injection h1 with _ h2; exact h2.symm
    · simp at he
  · injection he with h1; injection h1 with _ h2; exact h2.symm

theorem fs_has_value_of_file {self : FileSystemIntermediateManager} {fs : FS}
    {h : StepOutputHandle} {bs : List Nat}
    (hf : alookup fs (self.create_path_from_handle h) = some (FSNode.file bs)) :
    self.has_value fs h = .ok (true, fs) := by
  simp [FileSystemIntermediateManager.has_value, pathExists, isFile, hf]

theorem fs_has_value_of_none {self : FileSystemIntermediateManager} {fs : FS}
    {h : StepOutputHandle}
    (hf : alookup fs (self.create_path_from_handle h) = none) :
    self.has_value fs h = .ok (false, fs) := by
  simp [FileSystemIntermediateManager.has_value, pathExists, hf]

theorem fs_has_value_of_dir {self : FileSystemIntermediateManager} {fs : FS}
    {h : StepOutputHandle}
    (hf : alookup fs (self.create_path_from_handle h) = some FSNode.dir) :
    self.has_value fs h = .error .corruptStore := by
  simp [FileSystemIntermediateManager.has_value, pathExists, isFile, hf]

theorem fs_get_value_of_file {α : Type} {dec : List Nat → Option α}
    {self : FileSystemIntermediateManager} {fs : FS} {h : StepOutputHandle}
    {bs : List Nat} {v : α}
    (hf : alookup fs (self.create_path_from_handle h) = some (FSNode.file bs))
    (hd : dec bs = some v) :
    self.get_value dec fs h = .ok (v, fs) := by
  unfold FileSystemIntermediateManager.get_value
  rw [fs_has_value_of_file hf]
  simp [isFile, read_pickle_file, hf, hd]

theorem fs_set_value_ok_inv {α : Type} {enc : α → List Nat}
    {self : FileSystemIntermediateManager} {fs fs' : FS} {h : StepOutputHandle} {v : α}
    (hs : self.set_value enc fs h v = .ok ((), fs')) :
    ∃ fs2 : FS,
      fs' = (self.create_path_from_handle h, FSNode.file (enc v)) :: fs2 ∧
      alookup fs2 (self.create_path_from_handle h) = none ∧
      ∀ q : String, q ≠ self.root ++ "/" ++ h.step_key → alookup fs2 q = alookup fs q := by
  unfold FileSystemIntermediateManager.set_value at hs
  split at hs
  · simp at hs
  · simp at hs
  · rename_i b fs1 heq
    have hfs1 : fs1 = fs := fs_has_value_state heq
    subst hfs1
    split at hs
    · simp at hs
    · rename_i fs2 hmk
      split at hs
      · simp at hs
      · rename_i hnex
        split at hs
        · rename_i fs3 hw
          injection hs with h1
          injection h1 with _ h2
          subst h2
          have hnone : alookup fs2 (self.create_path_from_handle h) = none := by
            simp [pathExists] at hnex
            exact hnex
          have hfs3 : fs3 = (self.create_path_from_handle h, FSNode.file (enc v)) :: fs2 := by
            unfold write_pickle_file at hw
            split at hw
            · simp at hw
            · injection hw with h3; exact h3.symm
          refine ⟨fs2, hfs3, hnone, ?_⟩
          unfold mkdir_p at hmk
          split at hmk
          · injection hmk with h4
            subst h4
            intro q _
            rfl
          · split at hmk
            · simp at hmk
            · injection hmk with h4
              subst h4
              intro q hq
              simp [alookup, hq]
        · simp at hs

/-! Helper lemmas about the in-memory backend. -/

theorem imm_get_value_of_lookup {α : Type} {m : InMemoryIntermediatesManager α}
    {h : StepOutputHandle} {v : α}
    (hl : alookup m.values h = some v) :
    m.get_value h = .ok (v, m) := by
  simp [InMemoryIntermediatesManager.get_value, hl]

theorem imm_has_value_of_lookup {α : Type} {m : InMemoryIntermediatesManager α}
    {h : StepOutputHandle} {v : α}
    (hl : alookup m.values h = some v) :
    m.has_value h = .ok (true, m) := by
  simp [InMemoryIntermediatesManager.has_value, hl]

/-! Concrete codec used by the witnesses: one byte per natural value. -/

def encNat : Nat → List Nat := fun n => [n]

def decNat : List Nat → Option Nat := fun bs =>
  match bs with
  | [n] => some n
  | _ => none

/-! The claims. -/

/-- C2: read-after-write round trip.  For both backends, after a successful
`set_value(h, v)`, `has_value(h)` is `true` and `get_value(h)` returns `v`
(for the filesystem backend under the hypothesis that decoding the encoding
of `v` gives back `v`). -/
theorem read_after_write_round_trip :
    (∀ (α : Type) (m : InMemoryIntermediatesManager α) (h : StepOutputHandle) (v : α)
        (m' : InMemoryIntermediatesManager α),
      m.set_value h v = .ok ((), m') →
        m'.has_value h = .ok (true, m') ∧ m'.get_value h = .ok (v, m')) ∧
    (∀ (α : Type) (enc : α → List Nat) (dec : List Nat → Option α)
        (self : FileSystemIntermediateManager) (fs : FS) (h : StepOutputHandle)
        (v : α) (fs' : FS),
      dec (enc v) = some v →
      self.set_value enc fs h v = .ok ((), fs') →
        self.has_value fs' h = .ok (true, fs') ∧ self.get_value dec fs' h = .ok (v, fs')) := by
  constructor
  · intro α m h v m' hset
    unfold InMemoryIntermediatesManager.set_value at hset
    injection hset with h1
    injection h1 with _ h2
    subst h2
    have hl : alookup ((h, v) :: m.values) h = some v := by simp [alookup]
    exact ⟨imm_has_value_of_lookup hl, imm_get_value_of_lookup hl⟩
  · intro α enc dec self fs h v fs' hdec hset
    obtain ⟨fs2, hfs', _, _⟩ := fs_set_value_ok_inv hset
    have hl : alookup fs' (self.create_path_from_handle h) = some (FSNode.file (enc v)) := by
      subst hfs'; simp [alookup]
    exact ⟨fs_has_value_of_file hl, fs_get_value_of_file hl hdec⟩

/-- C2 witness: a concrete round trip through each backend. -/
theorem read_after_write_round_trip_witness :
    (InMemoryIntermediatesManager.has_value
        (⟨[(⟨"s","o"⟩, 5)]⟩ : InMemoryIntermediatesManager Nat) ⟨"s","o"⟩
      = .ok (true, ⟨[(⟨"s","o"⟩, 5)]⟩) ∧
     InMemoryIntermediatesManager.get_value
        (⟨[(⟨"s","o"⟩, 5)]⟩ : InMemoryIntermediatesManager Nat) ⟨"s","o"⟩
      = .ok (5, ⟨[(⟨"s","o"⟩, 5)]⟩)) ∧
    (FileSystemIntermediateManager.has_value ⟨"r"⟩
        [("r/s1/o1", FSNode.file [1]), ("r/s1", FSNode.dir), ("r", FSNode.dir)] ⟨"s1","o1"⟩
      = .ok (true, [("r/s1/o1", FSNode.file [1]), ("r/s1", FSNode.dir), ("r", FSNode.dir)]) ∧
     FileSystemIntermediateManager.get_value decNat ⟨"r"⟩
        [("r/s1/o1", FSNode.file [1]), ("r/s1", FSNode.dir), ("r", FSNode.dir)] ⟨"s1","o1"⟩
      = .ok (1, [("r/s1/o1", FSNode.file [1]), ("r/s1", FSNode.dir), ("r", FSNode.dir)])) := by
  constructor
  · exact read_after_write_round_trip.1 Nat ⟨[]⟩ ⟨"s","o"⟩ 5 ⟨[(⟨"s","o"⟩, 5)]⟩ rfl
  · exact read_after_write_round_trip.2 Nat encNat decNat ⟨"r"⟩ [("r", FSNode.dir)]
      ⟨"s1","o1"⟩ 1 [("r/s1/o1", FSNode.file [1]), ("r/s1", FSNode.dir), ("r", FSNode.dir)]
      rfl rfl

/-- C1 counterexample: the in-memory backend does not enforce write-once.
With the handle `("a","b")` already holding `1`, a second
`set_value(("a","b"), 2)` returns successfully (no `PreconditionViolation`)
and the stored value becomes `2`: the original value is overwritten. -/
theorem write_once_in_memory_overwrite :
    InMemoryIntermediatesManager.has_value
        (⟨[(⟨"a","b"⟩, 1)]⟩ : InMemoryIntermediatesManager Nat) ⟨"a","b"⟩
      = .ok (true, ⟨[(⟨"a","b"⟩, 1)]⟩) ∧
    InMemoryIntermediatesManager.set_value
        (⟨[(⟨"a","b"⟩, 1)]⟩ : InMemoryIntermediatesManager Nat) ⟨"a","b"⟩ 2
      = .ok ((), ⟨[(⟨"a","b"⟩, 2), (⟨"a","b"⟩, 1)]⟩) ∧
    InMemoryIntermediatesManager.get_value
        (⟨[(⟨"a","b"⟩, 2), (⟨"a","b"⟩, 1)]⟩ : InMemoryIntermediatesManager Nat) ⟨"a","b"⟩
      = .ok (2, ⟨[(⟨"a","b"⟩, 2), (⟨"a","b"⟩, 1)]⟩) :=
  ⟨rfl, rfl, rfl⟩

/-- C1 (amended): write-once is enforced by the filesystem backend only.
For the filesystem backend, a second `set_value` on a handle already holding
a value fails with `PreconditionViolation` (and, the failing check being the
first statement of the method, nothing is mutated); the in-memory backend
does not enforce write-once: a second `set_value` succeeds and overwrites
the stored value. -/
theorem write_once_semantics :
    (∀ (α : Type) (enc : α → List Nat) (self : FileSystemIntermediateManager)
        (fs : FS) (h : StepOutputHandle) (v2 : α),
      self.has_value fs h = .ok (true, fs) →
        self.set_value enc fs h v2 = .error .preconditionViolation) ∧
    (∀ (α : Type) (m : InMemoryIntermediatesManager α) (h : StepOutputHandle) (v2 : α),
      m.set_value h v2 = .ok ((), ⟨(h, v2) :: m.values⟩) ∧
      InMemoryIntermediatesManager.get_value (⟨(h, v2) :: m.values⟩ : InMemoryIntermediatesManager α) h
        = .ok (v2, ⟨(h, v2) :: m.values⟩)) := by
  constructor
  · intro α enc self fs h v2 hhas
    unfold FileSystemIntermediateManager.set_value
    rw [hhas]
  · intro α m h v2
    have hl : alookup ((h, v2) :: m.values) h = some v2 := by simp [alookup]
    exact ⟨rfl, imm_get_value_of_lookup hl⟩

/-- C1 witness: concrete instances of both conjuncts of the amended claim. -/
theorem write_once_semantics_witness :
    FileSystemIntermediateManager.set_value encNat ⟨"r"⟩
        [("r/s1/o1", FSNode.file [1]), ("r/s1", FSNode.dir), ("r", FSNode.dir)] ⟨"s1","o1"⟩ 9
      = .error .preconditionViolation ∧
    InMemoryIntermediatesManager.set_value
        (⟨[(⟨"a","b"⟩, 1)]⟩ : InMemoryIntermediatesManager Nat) ⟨"a","b"⟩ 9
      = .ok ((), ⟨[(⟨"a","b"⟩, 9), (⟨"a","b"⟩, 1)]⟩) := by
  constructor
  · exact write_once_semantics.1 Nat encNat ⟨"r"⟩
      [("r/s1/o1", FSNode.file [1]), ("r/s1", FSNode.dir), ("r", FSNode.dir)] ⟨"s1","o1"⟩ 9 rfl
  · exact (write_once_semantics.2 Nat ⟨[(⟨"a","b"⟩, 1)]⟩ ⟨"a","b"⟩ 9).1

/-- C3 counterexample: on the in-memory backend, `get_value` on a
never-written handle fails with the `KeyError` of the dict subscript
(`keyNotFound`, the spec's `KeyNotFound`), which is a different failure from
`PreconditionViolation`. -/
theorem in_memory_read_before_write_key_error :
    InMemoryIntermediatesManager.get_value
        (⟨[]⟩ : InMemoryIntermediatesManager Nat) ⟨"a","b"⟩ = .error .keyNotFound ∧
    Err.keyNotFound ≠ Err.preconditionViolation :=
  ⟨rfl, by decide⟩

/-- C3 (amended): read-before-write fails on both backends and never returns
a default value, but with backend-specific failures: for a handle absent
from the store, `has_value` is `false` on both backends, `get_value` fails
with `KeyNotFound` on the in-memory backend (a plain dict subscript) and
with `PreconditionViolation` on the filesystem backend. -/
theorem read_before_write_fails :
    (∀ (α : Type) (m : InMemoryIntermediatesManager α) (h : StepOutputHandle),
      alookup m.values h = none →
        m.has_value h = .ok (false, m) ∧ m.get_value h = .error .keyNotFound) ∧
    (∀ (α : Type) (dec : List Nat → Option α) (self : FileSystemIntermediateManager)
        (fs : FS) (h : StepOutputHandle),
      alookup fs (self.create_path_from_handle h) = none →
        self.has_value fs h = .ok (false, fs) ∧
        self.get_value dec fs h = .error .preconditionViolation) := by
  constructor
  · intro α m h hl
    constructor
    · simp [InMemoryIntermediatesManager.has_value, hl]
    · simp [InMemoryIntermediatesManager.get_value, hl]
  · intro α dec self fs h hl
    have hhas : self.has_value fs h = .ok (false, fs) := fs_has_value_of_none hl
    refine ⟨hhas, ?_⟩
    unfold FileSystemIntermediateManager.get_value
    rw [hhas]

/-- C3 witness: a concrete never-written handle on each backend. -/
theorem read_before_write_fails_witness :
    (InMemoryIntermediatesManager.has_value
        (⟨[]⟩ : InMemoryIntermediatesManager Nat) ⟨"a","b"⟩ = .ok (false, ⟨[]⟩) ∧
     InMemoryIntermediatesManager.get_value
        (⟨[]⟩ : InMemoryIntermediatesManager Nat) ⟨"a","b"⟩ = .error .keyNotFound) ∧
    (FileSystemIntermediateManager.has_value ⟨"r"⟩ [("r", FSNode.dir)] ⟨"s1","o1"⟩
      = .ok (false, [("r", FSNode.dir)]) ∧
     FileSystemIntermediateManager.get_value decNat ⟨"r"⟩ [("r", FSNode.dir)] ⟨"s1","o1"⟩
      = .error .preconditionViolation) := by
  constructor
  · exact read_before_write_fails.1 Nat ⟨[]⟩ ⟨"a","b"⟩ rfl
  · exact read_before_write_fails.2 Nat decNat ⟨"r"⟩ [("r", FSNode.dir)] ⟨"s1","o1"⟩ rfl

/-- C7: constructing a `StepOutputHandle` requires both fields non-empty;
an empty `step_key` or `output_name` makes construction fail, and two
non-empty fields make it succeed with exactly those fields. -/
theorem handle_fields_nonempty :
    ∀ (step_key output_name : String),
      ((step_key = "" ∨ output_name = "") →
        StepOutputHandle.new step_key output_name = .error .invalidParameter) ∧
      (step_key ≠ "" → output_name ≠ "" →
        StepOutputHandle.new step_key output_name = .ok ⟨step_key, output_name⟩) := by
  intro step_key output_name
  constructor
  · intro hcase
    rcases hcase with hk | hn
    · simp [StepOutputHandle.new, hk]
    · by_cases hk : step_key = "" <;> simp [StepOutputHandle.new, hk, hn]
  · intro hk hn
    simp [StepOutputHandle.new, hk, hn]

/-- C7 witness: concrete failing and succeeding constructions. -/
theorem handle_fields_nonempty_witness :
    StepOutputHandle.new "" "out" = .error .invalidParameter ∧
    StepOutputHandle.new "step" "" = .error .invalidParameter ∧
    StepOutputHandle.new "step" "out" = .ok ⟨"step", "out"⟩ := by
  refine ⟨?_, ?_, ?_⟩
  · exact (handle_fields_nonempty "" "out").1 (Or.inl rfl)
  · exact (handle_fields_nonempty "step" "").1 (Or.inr rfl)
  · exact (handle_fields_nonempty "step" "out").2 (by decide) (by decide)

/-- C8: constructing a `FileSystemIntermediateManager` against a path that
is not an existing directory fails with `InvalidRoot`; against an existing
directory it succeeds.  The check is the whole constructor: no `set_value`
or `get_value` is involved. -/
theorem invalid_root_at_construction :
    ∀ (fs : FS) (root : String),
      (isDir fs root = false →
        FileSystemIntermediateManager.init fs root = .error .invalidRoot) ∧
      (isDir fs root = true →
        FileSystemIntermediateManager.init fs root = .ok ⟨root⟩) := by
  intro fs root
  constructor
  · intro hd; simp [FileSystemIntermediateManager.init, hd]
  · intro hd; simp [FileSystemIntermediateManager.init, hd]

/-- C8 witness: a missing root, a root that is a regular file, and a root
that is a directory. -/
theorem invalid_root_at_construction_witness :
    FileSystemIntermediateManager.init [] "r" = .error .invalidRoot ∧
    FileSystemIntermediateManager.init [("r", FSNode.file [0])] "r" = .error .invalidRoot ∧
    FileSystemIntermediateManager.init [("r", FSNode.dir)] "r" = .ok ⟨"r"⟩ := by
  refine ⟨?_, ?_, ?_⟩
  · exact (invalid_root_at_construction [] "r").1 rfl
  · exact (invalid_root_at_construction [("r", FSNode.file [0])] "r").1 rfl
  · exact (invalid_root_at_construction [("r", FSNode.dir)] "r").2 rfl

/-- C9: filesystem `has_value` semantics.  `has_value` answers `true` iff
the derived path is a regular file; a missing path answers `false`; a path
that exists but is a directory (the only non-regular-file node of the model)
fails with `CorruptStore` instead of being treated as absent. -/
theorem filesystem_has_value_semantics :
    ∀ (self : FileSystemIntermediateManager) (fs : FS) (h : StepOutputHandle),
      (self.has_value fs h = .ok (true, fs) ↔
        isFile fs (self.create_path_from_handle h) = true) ∧
      (pathExists fs (self.create_path_from_handle h) = false →
        self.has_value fs h = .ok (false, fs)) ∧
      (pathExists fs (self.create_path_from_handle h) = true →
        isFile fs (self.create_path_from_handle h) = false →
        self.has_value fs h = .error .corruptStore) := by
  intro self fs h
  refine ⟨⟨?_, ?_⟩, ?_, ?_⟩
  · intro he
    unfold FileSystemIntermediateManager.has_value at he
    split at he
    · split at he
      · assumption
      · simp at he
    · simp at he
  · intro hf
    have hex : pathExists fs (self.create_path_from_handle h) = true := by
      unfold isFile at hf
      unfold pathExists
      split at hf
      · simp_all
      · simp at hf
    simp [FileSystemIntermediateManager.has_value, hex, hf]
  · intro hex
    simp [FileSystemIntermediateManager.has_value, hex]
  · intro hex hf
    simp [FileSystemIntermediateManager.has_value, hex, hf]

/-- C9 witness: the three concrete cases (regular file, absent path, path
occupied by a directory). -/
theorem filesystem_has_value_semantics_witness :
    FileSystemIntermediateManager.has_value ⟨"r"⟩
        [("r/s/o", FSNode.file [3]), ("r", FSNode.dir)] ⟨"s","o"⟩
      = .ok (true, [("r/s/o", FSNode.file [3]), ("r", FSNode.dir)]) ∧
    FileSystemIntermediateManager.has_value ⟨"r"⟩ [("r", FSNode.dir)] ⟨"s","o"⟩
      = .ok (false, [("r", FSNode.dir)]) ∧
    FileSystemIntermediateManager.has_value ⟨"r"⟩
        [("r/s/o", FSNode.dir), ("r", FSNode.dir)] ⟨"s","o"⟩
      = .error .corruptStore := by
  refine ⟨?_, ?_, ?_⟩
  · exact (filesystem_has_value_semantics ⟨"r"⟩
      [("r/s/o", FSNode.file [3]), ("r", FSNode.dir)] ⟨"s","o"⟩).1.2 rfl
  · exact (filesystem_has_value_semantics ⟨"r"⟩ [("r", FSNode.dir)] ⟨"s","o"⟩).2.1 rfl
  · exact (filesystem_has_value_semantics ⟨"r"⟩
      [("r/s/o", FSNode.dir), ("r", FSNode.dir)] ⟨"s","o"⟩).2.2 rfl rfl

/-- C10: queries are read-only on both backends.  Whenever `has_value` or
`get_value` returns, the state it returns is exactly the state it was given:
the in-memory mapping is unchanged and no filesystem entry was created,
modified or deleted. -/
theorem queries_read_only :
    (∀ (α : Type) (m : InMemoryIntermediatesManager α) (h : StepOutputHandle)
        (b : Bool) (m' : InMemoryIntermediatesManager α),
      m.has_value h = .ok (b, m') → m' = m) ∧
    (∀ (α : Type) (m : InMemoryIntermediatesManager α) (h : StepOutputHandle)
        (v : α) (m' : InMemoryIntermediatesManager α),
      m.get_value h = .ok (v, m') → m' = m) ∧
    (∀ (self : FileSystemIntermediateManager) (fs : FS) (h : StepOutputHandle)
        (b : Bool) (fs' : FS),
      self.has_value fs h = .ok (b, fs') → fs' = fs) ∧
    (∀ (α : Type) (dec : List Nat → Option α) (self : FileSystemIntermediateManager)
        (fs : FS) (h : StepOutputHandle) (v : α) (fs' : FS),
      self.get_value dec fs h = .ok (v, fs') → fs' = fs) := by
  refine ⟨?_, ?_, ?_, ?_⟩
  · intro α m h b m' he
    unfold InMemoryIntermediatesManager.has_value at he
    injection he with h1
    injection h1 with _ h2
    exact h2.symm
  · intro α m h v m' he
    unfold InMemoryIntermediatesManager.get_value at he
    split at he
    · injection he with h1; injection h1 with _ h2; exact h2.symm
    · simp at he
  · intro self fs h b fs' he
    exact fs_has_value_state he
  · intro α dec self fs h v fs' he
    unfold FileSystemIntermediateManager.get_value at he
    split at he
    · simp at he
    · simp at he
    · rename_i b fs1 heq
      have hfs1 : fs1 = fs := fs_has_value_state heq
      subst hfs1
      split at he
      · split at he
        · injection he with h1; injection h1 with _ h2; exact h2.symm
        · simp at he
      · simp at he

/-- C10 witness: concrete queries on each backend leave the concrete state
untouched. -/
theorem queries_read_only_witness :
    ((⟨[(⟨"a","b"⟩, 4)]⟩ : InMemoryIntermediatesManager Nat)
      = (⟨[(⟨"a","b"⟩, 4)]⟩ : InMemoryIntermediatesManager Nat)) ∧
    ([("r/s/o", FSNode.file [3]), ("r", FSNode.dir)] : FS)
      = [("r/s/o", FSNode.file [3]), ("r", FSNode.dir)] := by
  constructor
  · exact queries_read_only.2.1 Nat ⟨[(⟨"a","b"⟩, 4)]⟩ ⟨"a","b"⟩ 4 ⟨[(⟨"a","b"⟩, 4)]⟩ rfl
  · exact queries_read_only.2.2.2 Nat decNat ⟨"r"⟩
      [("r/s/o", FSNode.file [3]), ("r", FSNode.dir)] ⟨"s","o"⟩ 3
      [("r/s/o", FSNode.file [3]), ("r", FSNode.dir)] rfl

/-! Path-string machinery for the path-derivation claims: splitting a path
on the separator, and the normal form of `os.path.join` on separator-free
components. -/

/-- Split a character list on the separator; the inverse view of the
`root/step_key/output_name` layout. -/
def splitSegs : List Char → List (List Char)
  | [] => [[]]
  | c :: rest =>
    if c = '/' then [] :: splitSegs rest
    else
      match splitSegs rest with
      | [] => [[c]]
      | s :: ss => (c :: s) :: ss

/-- The segments of a path string. -/
def segsOfString (s : String) : List String :=
  (splitSegs s.data).map fun l => String.mk l

theorem splitSegs_no_slash (l : List Char) (h : '/' ∉ l) : splitSegs l = [l] := by
  induction l with
  | nil => rfl
  | cons c rest ih =>
    have hc : ¬ c = '/' := fun hc => h (hc ▸ List.mem_cons_self c rest)
    have hrest : '/' ∉ rest := fun hr => h (List.mem_cons_of_mem c hr)
    simp [splitSegs, hc, ih hrest]

theorem splitSegs_append (a b : List Char) (h : '/' ∉ a) :
    splitSegs (a ++ '/' :: b) = a :: splitSegs b := by
  induction a with
  | nil => simp [splitSegs]
  | cons c rest ih =>
    have hc : ¬ c = '/' := fun hc => h (hc ▸ List.mem_cons_self c rest)
    have hrest : '/' ∉ rest := fun hr => h (List.mem_cons_of_mem c hr)
    simp only [List.cons_append, splitSegs, hc, if_false, List.append_eq, ih hrest]

theorem slash_split_unique {a1 a2 b1 b2 : List Char}
    (h1 : '/' ∉ a1) (h2 : '/' ∉ a2)
    (he : a1 ++ '/' :: b1 = a2 ++ '/' :: b2) : a1 = a2 ∧ b1 = b2 := by
  have hs := congrArg splitSegs he
  rw [splitSegs_append a1 b1 h1, splitSegs_append a2 b2 h2] at hs
  injection hs with ha _
  subst ha
  have hb := List.append_cancel_left he
  injection hb with _ hb2
  exact ⟨rfl, hb2⟩

theorem getLast?_no_slash {l : List Char} (h : '/' ∉ l) : l.getLast? ≠ some '/' := by
  intro hc
  have hmem : '/' ∈ l.getLast? := by rw [hc]; rfl
  obtain ⟨hne, hx⟩ := List.mem_getLast?_eq_getLast hmem
  exact h (hx ▸ List.getLast_mem hne)

theorem startsWithSlash_of_no_slash {s : String} (h : '/' ∉ s.data) :
    startsWithSlash s = false := by
  unfold startsWithSlash
  rw [decide_eq_false_iff_not]
  intro hc
  cases hd : s.data with
  | nil => rw [hd] at hc; simp at hc
  | cons c cs =>
    rw [hd] at hc
    simp at hc
    rw [hd, hc] at h
    exact h (List.mem_cons_self _ _)

theorem endsWithSlash_of_no_slash {s : String} (h : '/' ∉ s.data) :
    endsWithSlash s = false := by
  unfold endsWithSlash
  rw [decide_eq_false_iff_not]
  exact getLast?_no_slash h

theorem endsWithSlash_append {t k : String} (hk : k.data ≠ []) :
    endsWithSlash (t ++ k) = endsWithSlash k := by
  unfold endsWithSlash
  rw [String.data_append, List.getLast?_append]
  cases hg : k.data.getLast? with
  | none => exact absurd (List.getLast?_eq_none_iff.mp hg) hk
  | some c => simp [Option.or]

theorem append_ne_empty_of_right {t k : String} (hk : k.data ≠ []) : t ++ k ≠ "" := by
  intro hc
  have : (t ++ k).data = [] := by rw [hc]
  rw [String.data_append] at this
  exact hk (List.append_eq_nil.mp this).2

/-- The one non-degenerate branch of `posixpath.join`: a relative,
non-empty-path, no-trailing-separator join inserts exactly one separator. -/
theorem joinTwo_normal {path b : String} (hb : startsWithSlash b = false)
    (hp : path ≠ "") (hpe : endsWithSlash path = false) :
    joinTwo path b = path ++ "/" ++ b := by
  simp [joinTwo, hb, hp, hpe]

/-- The prefix contributed by the root in a derived path: the root itself,
plus a separator unless the root is empty or already ends with one. -/
def rootPart (root : String) : String :=
  if root = "" then root
  else if endsWithSlash root then root
  else root ++ "/"

theorem create_path_normal (root : String) (h : StepOutputHandle)
    (hk : h.step_key.data ≠ []) (hkm : '/' ∉ h.step_key.data)
    (hnm : '/' ∉ h.output_name.data) :
    FileSystemIntermediateManager.create_path_from_handle ⟨root⟩ h
      = rootPart root ++ h.step_key ++ "/" ++ h.output_name := by
  unfold FileSystemIntermediateManager.create_path_from_handle
  have h1 : joinTwo root h.step_key = rootPart root ++ h.step_key := by
    unfold joinTwo rootPart
    rw [startsWithSlash_of_no_slash hkm]
    by_cases hr : root = ""
    · simp [hr]
    · by_cases hre : endsWithSlash root
      · simp [hr, hre]
      · simp [hr, hre]
  rw [h1]
  exact joinTwo_normal (startsWithSlash_of_no_slash hnm)
    (append_ne_empty_of_right hk)
    (by rw [endsWithSlash_append hk]; exact endsWithSlash_of_no_slash hkm)

theorem string_mk_data (s : String) : String.mk s.data = s := rfl

theorem data_slash : ("/" : String).data = ['/'] := rfl

theorem segs_reconstruct (k n : String) (hkm : '/' ∉ k.data) (hnm : '/' ∉ n.data) :
    segsOfString (k ++ "/" ++ n) = [k, n] := by
  unfold segsOfString
  have hd : (k ++ "/" ++ n).data = k.data ++ '/' :: n.data := by
    rw [String.data_append, String.data_append, data_slash, List.append_assoc,
      List.singleton_append]
  rw [hd, splitSegs_append _ _ hkm, splitSegs_no_slash _ hnm]
  simp [string_mk_data]

theorem data_ne_nil_of_ne_empty {s : String} (h : s ≠ "") : s.data ≠ [] :=
  fun hc => h (String.ext (hc.trans rfl))

/-- C4 counterexample: path derivation is not injective over all handles.
The distinct handles `("a/b","c")` and `("a","b/c")` derive the same path
under the root `"r"` (both give `"r/a/b/c"`), because `os.path.join` does
not quote separators occurring inside the components. -/
theorem path_derivation_collision :
    FileSystemIntermediateManager.create_path_from_handle ⟨"r"⟩ ⟨"a/b","c"⟩
      = FileSystemIntermediateManager.create_path_from_handle ⟨"r"⟩ ⟨"a","b/c"⟩ ∧
    (⟨"a/b","c"⟩ : StepOutputHandle) ≠ (⟨"a","b/c"⟩ : StepOutputHandle) :=
  ⟨by decide, by decide⟩

/-- C4 (amended): path derivation is injective and self-describing on
handles whose fields are separator-free, the only handles the layout is
meant for (the spec calls the fields "identifiers"): for handles with a
non-empty `step_key` and no `'/'` in either field, two distinct handles
derive distinct paths under the same root, the derived path is the root
part followed by the relative path `step_key ++ "/" ++ output_name`, and
splitting that relative path on the separator reconstructs exactly the two
fields of the handle. -/
theorem path_derivation_injective :
    ∀ (root : String) (a b : StepOutputHandle),
      a.step_key.data ≠ [] → '/' ∉ a.step_key.data → '/' ∉ a.output_name.data →
      b.step_key.data ≠ [] → '/' ∉ b.step_key.data → '/' ∉ b.output_name.data →
      (FileSystemIntermediateManager.create_path_from_handle ⟨root⟩ a
          = FileSystemIntermediateManager.create_path_from_handle ⟨root⟩ b → a = b) ∧
      FileSystemIntermediateManager.create_path_from_handle ⟨root⟩ a
          = rootPart root ++ (a.step_key ++ "/" ++ a.output_name) ∧
      segsOfString (a.step_key ++ "/" ++ a.output_name) = [a.step_key, a.output_name] := by
  intro root a b hka hkam hnam hkb hkbm hnbm
  refine ⟨?_, ?_, segs_reconstruct a.step_key a.output_name hkam hnam⟩
  · intro he
    rw [create_path_normal root a hka hkam hnam,
      create_path_normal root b hkb hkbm hnbm] at he
    have hd := congrArg String.data he
    simp only [String.data_append, data_slash, List.append_assoc,
      List.singleton_append] at hd
    have hd2 := List.append_cancel_left hd
    obtain ⟨hk, hn⟩ := slash_split_unique hkam hkbm hd2
    obtain ⟨ka, na⟩ := a
    obtain ⟨kb, nb⟩ := b
    simp only at hk hn
    rw [String.ext hk, String.ext hn]
  · rw [create_path_normal root a hka hkam hnam, String.append_assoc,
      String.append_assoc, ← String.append_assoc a.step_key]

/-- C4 witness: a concrete separator-free handle, its normal-form path and
its reconstruction, via the theorem applied at `root = "r"`. -/
theorem path_derivation_injective_witness :
    ((⟨"s","o"⟩ : StepOutputHandle) = ⟨"s","o"⟩) ∧
    FileSystemIntermediateManager.create_path_from_handle ⟨"r"⟩ ⟨"s","o"⟩
      = rootPart "r" ++ ("s" ++ "/" ++ "o") ∧
    segsOfString ("s" ++ "/" ++ "o") = ["s", "o"] := by
  have H := path_derivation_injective "r" ⟨"s","o"⟩ ⟨"s","o"⟩
    (by decide) (by decide) (by decide) (by decide) (by decide) (by decide)
  exact ⟨H.1 rfl, H.2.1, H.2.2⟩

/-- C6 counterexample: the stored value does not always live at
`root/step_key/output_name`.  With root `"r"` and the handle `("/k","n")`,
`set_value` succeeds but stores the file at `"/k/n"` — `os.path.join`
discards the root for an absolute component — and nothing lives at
`"r" ++ "/" ++ "/k" ++ "/" ++ "n"`. -/
theorem path_layout_absolute_component :
    FileSystemIntermediateManager.set_value encNat ⟨"r"⟩
        [("r", FSNode.dir), ("/k", FSNode.dir)] ⟨"/k","n"⟩ 7
      = .ok ((), [("/k/n", FSNode.file [7]), ("r//k", FSNode.dir),
          ("r", FSNode.dir), ("/k", FSNode.dir)]) ∧
    alookup [("/k/n", FSNode.file [7]), ("r//k", FSNode.dir),
        ("r", FSNode.dir), ("/k", FSNode.dir)]
      ("r" ++ "/" ++ "/k" ++ "/" ++ "n") = none ∧
    alookup [("/k/n", FSNode.file [7]), ("r//k", FSNode.dir),
        ("r", FSNode.dir), ("/k", FSNode.dir)] "/k/n"
      = some (FSNode.file [7]) :=
  ⟨rfl, by decide, by decide⟩

/-- C6 (amended): deterministic path layout for relative, separator-normal
inputs.  For a non-empty root with no trailing separator and a handle whose
`step_key` is non-empty, does not begin or end with the separator, and whose
`output_name` does not begin with it, the derived path is exactly
`root ++ "/" ++ step_key ++ "/" ++ output_name` — a pure function of the
root and the handle only — and a successful `set_value` stores the encoded
value at exactly that path, whatever the prior filesystem state and the
value. -/
theorem deterministic_path_layout :
    ∀ (α : Type) (enc : α → List Nat) (root : String) (fs fs' : FS)
      (h : StepOutputHandle) (v : α),
      root ≠ "" → endsWithSlash root = false →
      h.step_key ≠ "" → startsWithSlash h.step_key = false →
      endsWithSlash h.step_key = false → startsWithSlash h.output_name = false →
      FileSystemIntermediateManager.set_value enc ⟨root⟩ fs h v = .ok ((), fs') →
        FileSystemIntermediateManager.create_path_from_handle ⟨root⟩ h
            = root ++ "/" ++ h.step_key ++ "/" ++ h.output_name ∧
        alookup fs' (root ++ "/" ++ h.step_key ++ "/" ++ h.output_name)
            = some (FSNode.file (enc v)) := by
  intro α enc root fs fs' h v hr hre hk hks hke hns hset
  have hkd : h.step_key.data ≠ [] := data_ne_nil_of_ne_empty hk
  have hpath : FileSystemIntermediateManager.create_path_from_handle ⟨root⟩ h
      = root ++ "/" ++ h.step_key ++ "/" ++ h.output_name := by
    unfold FileSystemIntermediateManager.create_path_from_handle
    rw [joinTwo_normal hks hr hre]
    exact joinTwo_normal hns (append_ne_empty_of_right hkd)
      (by rw [endsWithSlash_append hkd]; exact hke)
  refine ⟨hpath, ?_⟩
  obtain ⟨fs2, hfs', _, _⟩ := fs_set_value_ok_inv hset
  rw [hfs', ← hpath]
  simp [alookup]

/-- C6 witness: a concrete successful write under root `"r"` lands exactly
at `"r" ++ "/" ++ "s" ++ "/" ++ "o"`. -/
theorem deterministic_path_layout_witness :
    FileSystemIntermediateManager.create_path_from_handle ⟨"r"⟩ ⟨"s","o"⟩
      = "r" ++ "/" ++ "s" ++ "/" ++ "o" ∧
    alookup [("r/s/o", FSNode.file [7]), ("r/s", FSNode.dir), ("r", FSNode.dir)]
      ("r" ++ "/" ++ "s" ++ "/" ++ "o") = some (FSNode.file (encNat 7)) := by
  exact deterministic_path_layout Nat encNat "r" [("r", FSNode.dir)]
    [("r/s/o", FSNode.file [7]), ("r/s", FSNode.dir), ("r", FSNode.dir)]
    ⟨"s","o"⟩ 7 (by decide) (by decide) (by decide) (by decide) (by decide)
    (by decide) rfl

/-- C5 counterexample: writes to distinct handles are not always
independent on the filesystem backend.  With root `"r"`, the distinct
handles `("a/b","c")` and `("a","b/c")` collide on the path `"r/a/b/c"`:
after `set_value(("a/b","c"), 42)` succeeds, `set_value(("a","b/c"), 7)`
fails with `PreconditionViolation`, so `get_value(("a","b/c"))` can never
return `7`. -/
theorem independent_handles_collision :
    FileSystemIntermediateManager.set_value encNat ⟨"r"⟩ [("r", FSNode.dir)] ⟨"a/b","c"⟩ 42
      = .ok ((), [("r/a/b/c", FSNode.file [42]), ("r/a/b", FSNode.dir), ("r", FSNode.dir)]) ∧
    FileSystemIntermediateManager.set_value encNat ⟨"r"⟩
        [("r/a/b/c", FSNode.file [42]), ("r/a/b", FSNode.dir), ("r", FSNode.dir)] ⟨"a","b/c"⟩ 7
      = .error .preconditionViolation ∧
    (⟨"a/b","c"⟩ : StepOutputHandle) ≠ (⟨"a","b/c"⟩ : StepOutputHandle) :=
  ⟨rfl, rfl, by decide⟩

/-- C5 (amended): independence of distinct handles.  On the in-memory
backend, exactly as claimed: for any two distinct handles, writing both (in
either order — the statement is symmetric in the two handles) leaves each
handle reading back its own value.  On the filesystem backend the same
holds provided the two handles derive distinct paths and the first handle's
path is not the step directory created for the second — conditions that
hold whenever the fields are separator-free identifiers but that slashes
inside fields can violate. -/
theorem independent_handles :
    (∀ (α : Type) (m : InMemoryIntermediatesManager α) (a b : StepOutputHandle)
        (v1 v2 : α) (m1 m2 : InMemoryIntermediatesManager α),
      a ≠ b →
      m.set_value a v1 = .ok ((), m1) →
      m1.set_value b v2 = .ok ((), m2) →
        m2.get_value a = .ok (v1, m2) ∧ m2.get_value b = .ok (v2, m2)) ∧
    (∀ (α : Type) (enc : α → List Nat) (dec : List Nat → Option α) (root : String)
        (fs fs1 fs2 : FS) (a b : StepOutputHandle) (v1 v2 : α),
      dec (enc v1) = some v1 → dec (enc v2) = some v2 →
      FileSystemIntermediateManager.create_path_from_handle ⟨root⟩ a
        ≠ FileSystemIntermediateManager.create_path_from_handle ⟨root⟩ b →
      FileSystemIntermediateManager.create_path_from_handle ⟨root⟩ a
        ≠ root ++ "/" ++ b.step_key →
      FileSystemIntermediateManager.set_value enc ⟨root⟩ fs a v1 = .ok ((), fs1) →
      FileSystemIntermediateManager.set_value enc ⟨root⟩ fs1 b v2 = .ok ((), fs2) →
        FileSystemIntermediateManager.get_value dec ⟨root⟩ fs2 a = .ok (v1, fs2) ∧
        FileSystemIntermediateManager.get_value dec ⟨root⟩ fs2 b = .ok (v2, fs2)) := by
  constructor
  · intro α m a b v1 v2 m1 m2 hne hs1 hs2
    unfold InMemoryIntermediatesManager.set_value at hs1 hs2
    injection hs1 with h1
    injection h1 with _ h2
    subst h2
    injection hs2 with h3
    injection h3 with _ h4
    subst h4
    constructor
    · exact imm_get_value_of_lookup (by simp [alookup, hne])
    · exact imm_get_value_of_lookup (by simp [alookup])
  · intro α enc dec root fs fs1 fs2 a b v1 v2 hd1 hd2 hpp hpm hs1 hs2
    obtain ⟨fs1b, hfs1, _, _⟩ := fs_set_value_ok_inv hs1
    have hl1 : alookup fs1 (FileSystemIntermediateManager.create_path_from_handle ⟨root⟩ a)
        = some (FSNode.file (enc v1)) := by
      rw [hfs1]; simp [alookup]
    obtain ⟨fs2b, hfs2, _, hframe2⟩ := fs_set_value_ok_inv hs2
    have hl2 : alookup fs2 (FileSystemIntermediateManager.create_path_from_handle ⟨root⟩ b)
        = some (FSNode.file (enc v2)) := by
      rw [hfs2]; simp [alookup]
    have hl1' : alookup fs2 (FileSystemIntermediateManager.create_path_from_handle ⟨root⟩ a)
        = some (FSNode.file (enc v1)) := by
      rw [hfs2]
      simp only [alookup_cons, if_neg hpp]
      rw [hframe2 _ hpm]
      exact hl1
    exact ⟨fs_get_value_of_file hl1' hd1, fs_get_value_of_file hl2 hd2⟩

/-- C5 witness: two separator-free handles under root `"r"`, written in
sequence; both read back their own values on both backends. -/
theorem independent_handles_witness :
    (InMemoryIntermediatesManager.get_value
        (⟨[(⟨"s2","o2"⟩, 2), (⟨"s1","o1"⟩, 1)]⟩ : InMemoryIntermediatesManager Nat) ⟨"s1","o1"⟩
      = .ok (1, ⟨[(⟨"s2","o2"⟩, 2), (⟨"s1","o1"⟩, 1)]⟩) ∧
     InMemoryIntermediatesManager.get_value
        (⟨[(⟨"s2","o2"⟩, 2), (⟨"s1","o1"⟩, 1)]⟩ : InMemoryIntermediatesManager Nat) ⟨"s2","o2"⟩
      = .ok (2, ⟨[(⟨"s2","o2"⟩, 2), (⟨"s1","o1"⟩, 1)]⟩)) ∧
    (FileSystemIntermediateManager.get_value decNat ⟨"r"⟩
        [("r/s2/o2", FSNode.file [2]), ("r/s2", FSNode.dir),
         ("r/s1/o1", FSNode.file [1]), ("r/s1", FSNode.dir), ("r", FSNode.dir)] ⟨"s1","o1"⟩
      = .ok (1, [("r/s2/o2", FSNode.file [2]), ("r/s2", FSNode.dir),
         ("r/s1/o1", FSNode.file [1]), ("r/s1", FSNode.dir), ("r", FSNode.dir)]) ∧
     FileSystemIntermediateManager.get_value decNat ⟨"r"⟩
        [("r/s2/o2", FSNode.file [2]), ("r/s2", FSNode.dir),
         ("r/s1/o1", FSNode.file [1]), ("r/s1", FSNode.dir), ("r", FSNode.dir)] ⟨"s2","o2"⟩
      = .ok (2, [("r/s2/o2", FSNode.file [2]), ("r/s2", FSNode.dir),
         ("r/s1/o1", FSNode.file [1]), ("r/s1", FSNode.dir), ("r", FSNode.dir)])) := by
  constructor
  · exact independent_handles.1 Nat ⟨[]⟩ ⟨"s1","o1"⟩ ⟨"s2","o2"⟩ 1 2
      ⟨[(⟨"s1","o1"⟩, 1)]⟩ ⟨[(⟨"s2","o2"⟩, 2), (⟨"s1","o1"⟩, 1)]⟩ (by decide) rfl rfl
  · exact independent_handles.2 Nat encNat decNat "r" [("r", FSNode.dir)]
      [("r/s1/o1", FSNode.file [1]), ("r/s1", FSNode.dir), ("r", FSNode.dir)]
      [("r/s2/o2", FSNode.file [2]), ("r/s2", FSNode.dir),
       ("r/s1/o1", FSNode.file [1]), ("r/s1", FSNode.dir), ("r", FSNode.dir)]
      ⟨"s1","o1"⟩ ⟨"s2","o2"⟩ 1 2 rfl rfl (by decide) (by decide) rfl rfl

end IntermediatesStore
